import Mathlib

/-!
Shallow embedding of the server-stats system: the `collector` crate (the
per-host agent, `src/crates/collector/src/main.rs` and `config.rs`) and the
`web` crate (the aggregator/dashboard, `src/crates/web/src/main.rs`).

Conventions of the embedding:
* machine integers (`u64`, `u16`) are `Nat` with explicit reduction modulo
  `2 ^ 64` (respectively a `< 2 ^ 16` bound) exactly where the Rust value
  is bounded or wraps;
* fallible operations return `Option` or `Except`; a Rust panic (an
  `unwrap` on a bad value) is the `none` of an outer `Option` layer;
* the `f64` quotient computed by `pct_used` is idealized as an exact
  rational, and the `f32` placeholder `cpu_usage` likewise;
* network effects (dialing, RPC calls, file reads) are passed in as
  explicit oracle functions or per-call results, so each handler becomes a
  pure function of its inputs.
-/

namespace ServerStats

/-- Modulus of the `u64` machine integers used for all memory counters. -/
def U64 : Nat := 2 ^ 64

/-! ### Rust string primitives used by the sources -/

/-- Character-list core of `str::starts_with`: the first list is the
pattern, the second the string searched. -/
def strStartsWithAux : List Char → List Char → Bool
  | [], _ => true
  | _ :: _, [] => false
  | p :: ps, c :: cs => p == c && strStartsWithAux ps cs

/-- Embeds Rust `line.starts_with(pat)`. -/
def strStartsWith (s pat : String) : Bool :=
  strStartsWithAux pat.data s.data

/-- Accumulator-based core of `str::split_whitespace`: splits at runs of
whitespace and never yields an empty token. -/
def splitWsAux : List Char → List Char → List String
  | [], acc => if acc.isEmpty then [] else [String.mk acc.reverse]
  | c :: cs, acc =>
    if c.isWhitespace then
      if acc.isEmpty then splitWsAux cs []
      else String.mk acc.reverse :: splitWsAux cs []
    else splitWsAux cs (c :: acc)

/-- Embeds Rust `str::split_whitespace` (collected to a list). -/
def splitWhitespace (s : String) : List String :=
  splitWsAux s.data []

/-- Finishes one line for `str::lines`: the accumulator is reversed and a
trailing carriage return is stripped. -/
def finishLine (acc : List Char) : String :=
  let l := acc.reverse
  if l.getLast? == some '\r' then String.mk l.dropLast else String.mk l

/-- Accumulator-based core of `str::lines`. -/
def rustLinesAux : List Char → List Char → List String
  | [], acc => if acc.isEmpty then [] else [finishLine acc]
  | c :: cs, acc =>
    if c == '\n' then finishLine acc :: rustLinesAux cs []
    else rustLinesAux cs (c :: acc)

/-- Embeds Rust `str::lines`: splits at newline terminators, strips a
trailing `\r` per line, and drops a final empty segment. -/
def rustLines (s : String) : List String :=
  rustLinesAux s.data []

/-- Embeds Rust `str::trim`. -/
def rustTrim (s : String) : String :=
  String.mk (((s.data.dropWhile Char.isWhitespace).reverse.dropWhile
    Char.isWhitespace).reverse)

/-- Horner evaluation of a decimal digit list. -/
def digitsToNat : List Char → Nat → Nat
  | [], acc => acc
  | c :: cs, acc => digitsToNat cs (acc * 10 + (c.toNat - 48))

/-- Embeds the shared grammar of Rust `str::parse` for unsigned integer
types: an optional leading plus sign followed by one or more ASCII
digits. Range checks are layered on top. -/
def rustParseNat (s : String) : Option Nat :=
  let cs :=
    match s.data with
    | '+' :: rest => rest
    | other => other
  if cs.isEmpty then none
  else if cs.all Char.isDigit then some (digitsToNat cs 0) else none

/-- Embeds `str::parse::<u64>()`: out-of-range values are a parse error. -/
def rustParseU64 (s : String) : Option Nat :=
  (rustParseNat s).bind fun n => if n < U64 then some n else none

/-- Embeds `str::parse::<u16>()`: out-of-range values are a parse error. -/
def rustParseU16 (s : String) : Option Nat :=
  (rustParseNat s).bind fun n => if n < 2 ^ 16 then some n else none

/-! ### Data model (`metrics_core` protobuf messages) -/

/-- The `Memory` message: five `u64` byte counters. -/
structure Memory where
  mem_total : Nat
  mem_free : Nat
  mem_available : Nat
  buffers : Nat
  cached : Nat
deriving DecidableEq, Repr

/-- The all-zero initial `Memory` value of `memory_usage`
(`collector/src/main.rs:136-140`). -/
def zeroMemory : Memory := ⟨0, 0, 0, 0, 0⟩

/-- The `MetricsResponse` message: hostname, `f32` CPU placeholder,
optional memory block, `u64` network placeholder. -/
structure MetricsResponse where
  host : String
  cpu_usage : Rat
  memory : Option Memory
  net_usage : Nat
deriving DecidableEq, Repr

/-- A gRPC status as produced by the handlers (only `Status::internal`
is ever constructed by the sources). -/
inductive GStatus where
  | internal (msg : String)
deriving DecidableEq, Repr

/-! ### Collector: host memory sampling (`collector/src/main.rs:131-172`) -/

/-- Value of one meminfo line: second whitespace-delimited token parsed
as `u64` (`parts.nth(1)` followed by `parse::<u64>()`); `none` when the
token is missing or unparsable, which in the source is an `unwrap` panic. -/
def lineValue (line : String) : Option Nat :=
  ((splitWhitespace line)[1]?).bind rustParseU64

/-- One guarded assignment of `memory_usage`: when `line` starts with
`key`, the field selected by `set` is assigned `lineValue * 1000`
(wrapping `u64` multiplication); other lines leave the state unchanged. -/
def applyMemKey (key : String) (set : Memory → Nat → Memory) (line : String)
    (m : Memory) : Option Memory :=
  if strStartsWith line key then
    (lineValue line).map (fun v => set m (v * 1000 % U64))
  else some m

/-- One iteration of the `for line in file.lines()` loop of
`memory_usage`: the five independent `if line.starts_with(..)` blocks in
source order (`MemTotal`, `MemAvailable`, `MemFree`, `Buffers`,
`Cached`). -/
def updateMemLine (m : Memory) (line : String) : Option Memory :=
  (applyMemKey "MemTotal" (fun m v => { m with mem_total := v }) line m).bind fun m =>
  (applyMemKey "MemAvailable" (fun m v => { m with mem_available := v }) line m).bind fun m =>
  (applyMemKey "MemFree" (fun m v => { m with mem_free := v }) line m).bind fun m =>
  (applyMemKey "Buffers" (fun m v => { m with buffers := v }) line m).bind fun m =>
  applyMemKey "Cached" (fun m v => { m with cached := v }) line m

/-- Embeds the parsing part of `memory_usage`
(`collector/src/main.rs:136-171`): fold the per-line update over the
lines of the meminfo text, starting from all-zero counters. `none` is
the `unwrap` panic on a recognized line whose second token is missing or
not a `u64` numeral. -/
def memory_usage (file : String) : Option Memory :=
  (rustLines file).foldlM updateMemLine zeroMemory

/-- The five keys recognized by `memory_usage`. -/
def memKeys : List String := ["MemTotal", "MemFree", "MemAvailable", "Buffers", "Cached"]

/-- A line is recognized when it starts with one of the five keys. -/
def lineRecognized (line : String) : Bool :=
  memKeys.any (fun k => strStartsWith line k)

/-- Modelled from the spec wording for comparison with `memory_usage`:
the value a field ends with is the converted value of the last line
matching its key, or the default when no line matches. -/
def lastKeyVal (d : Nat) (key : String) : List String → Nat
  | [] => d
  | l :: ls =>
      lastKeyVal (if strStartsWith l key then (lineValue l).getD 0 * 1000 % U64 else d) key ls

/-- Modelled from the spec wording (§4.4): each field is the converted
second token of the last line matching its key, zero when absent. -/
def memSpec (file : String) : Memory :=
  { mem_total := lastKeyVal 0 "MemTotal" (rustLines file)
    mem_free := lastKeyVal 0 "MemFree" (rustLines file)
    mem_available := lastKeyVal 0 "MemAvailable" (rustLines file)
    buffers := lastKeyVal 0 "Buffers" (rustLines file)
    cached := lastKeyVal 0 "Cached" (rustLines file) }

/-- Total (panic-free) version of `applyMemKey`, used as the functional
skeleton of the loop body in proofs. -/
def updPureKey (key : String) (set : Memory → Nat → Memory) (line : String)
    (m : Memory) : Memory :=
  if strStartsWith line key then set m ((lineValue line).getD 0 * 1000 % U64) else m

/-- Total version of `updateMemLine`. -/
def updPure (m : Memory) (line : String) : Memory :=
  updPureKey "Cached" (fun m v => { m with cached := v }) line
    (updPureKey "Buffers" (fun m v => { m with buffers := v }) line
      (updPureKey "MemFree" (fun m v => { m with mem_free := v }) line
        (updPureKey "MemAvailable" (fun m v => { m with mem_available := v }) line
          (updPureKey "MemTotal" (fun m v => { m with mem_total := v }) line m))))

/-! ### Collector: the RequestMetrics handler (`collector/src/main.rs:104-124`) -/

/-- Embeds `CollectorMetricService::request_metrics`. The two file reads
are passed in as per-call results (`none` = I/O error). A hostname read
error is mapped to `Status::internal` and propagated with `?`; a
memory read error is mapped and then discarded by `.ok()`, leaving
`memory` absent; a parse panic inside `memory_usage` is the outer
`none`. -/
def request_metrics (hostnameRead : Option String) (meminfoRead : Option String) :
    Option (Except GStatus MetricsResponse) :=
  match hostnameRead with
  | none => some (Except.error (GStatus.internal "Could not get hostname"))
  | some h =>
    match meminfoRead with
    | none =>
        some (Except.ok { host := rustTrim h, cpu_usage := 0, memory := none, net_usage := 0 })
    | some file =>
      match memory_usage file with
      | none => none
      | some mem =>
          some (Except.ok
            { host := rustTrim h, cpu_usage := 0, memory := some mem, net_usage := 0 })

/-! ### Aggregator: registration handler (`web/src/main.rs:79-105`) -/

/-- The `RegistrationResponse` message. -/
structure RegistrationResponse where
  status : String
deriving DecidableEq, Repr

/-- The address string the registration handler dials:
`format!("http://{}:{}", remote_addr.ip(), port)` where the IP comes
from the transport (`request.remote_addr()`) and only the port from the
request body. -/
def connectionTarget (ip port : String) : String :=
  "http://" ++ ip ++ ":" ++ port

/-- Embeds `MyRegistrationService::register`. The connection type is an
abstract `α`; `dial` is the oracle for `MetricsServiceClient::connect`.
On dial failure the handler returns `Status::internal` before touching
the registry; on success it pushes the fresh client and acknowledges
with status `"OK"`. -/
def register {α : Type} (dial : String → Option α) (connectors : List α)
    (remoteIp : String) (port : String) :
    List α × Except GStatus RegistrationResponse :=
  match dial (connectionTarget remoteIp port) with
  | none => (connectors, Except.error (GStatus.internal "Could not connect to collector"))
  | some client => (connectors ++ [client], Except.ok { status := "OK" })

/-! ### Aggregator: fan-out poll (`web/src/main.rs:129-161`) -/

/-- The only HTTP status the `metrics` handler ever returns as an error. -/
inductive HStatus where
  | internalServerError
deriving DecidableEq, Repr

/-- Embeds the collection loop of the `metrics` handler: for each client
in registry order, await `request_metrics`; a failed call is mapped to
`StatusCode::INTERNAL_SERVER_ERROR` and propagated with `?`, aborting
the whole handler. On success the handler renders the returned list. -/
def metrics {α : Type} (rpc : α → Option MetricsResponse) :
    List α → Except HStatus (List MetricsResponse)
  | [] => Except.ok []
  | c :: cs =>
    match rpc c with
    | none => Except.error HStatus.internalServerError
    | some r => (metrics rpc cs).map (fun rs => r :: rs)

/-! ### Aggregator: derived presentation fields (`web/src/main.rs:163-211`) -/

/-- Embeds `mem_total(metric)`: field of the optional memory block,
defaulting to zero. -/
def mem_total (metric : MetricsResponse) : Nat :=
  (metric.memory.map Memory.mem_total).getD 0

/-- Embeds `mem_free(metric)`. -/
def mem_free (metric : MetricsResponse) : Nat :=
  (metric.memory.map Memory.mem_free).getD 0

/-- Embeds `mem_available(metric)`. -/
def mem_available (metric : MetricsResponse) : Nat :=
  (metric.memory.map Memory.mem_available).getD 0

/-- Embeds `buffers(metric)`. -/
def buffers (metric : MetricsResponse) : Nat :=
  (metric.memory.map Memory.buffers).getD 0

/-- Embeds `cached(metric)`. -/
def cached (metric : MetricsResponse) : Nat :=
  (metric.memory.map Memory.cached).getD 0

/-- Wrapping `u64` subtraction (release-profile Rust semantics); the
operands produced by the accessors are always below `U64` in the real
system, which the theorems carry as hypotheses. -/
def wsub (a b : Nat) : Nat := (a + U64 - b) % U64

/-- Embeds `used(metric) = total - free - buffers - cached` over `u64`. -/
def used (metric : MetricsResponse) : Nat :=
  wsub (wsub (wsub (mem_total metric) (mem_free metric)) (buffers metric)) (cached metric)

/-- Embeds `pct_used(metric) = used as f64 / total as f64`, idealized
over the rationals. -/
def pct_used (metric : MetricsResponse) : Rat :=
  (used metric : Rat) / (mem_total metric : Rat)

/-! ### Aggregator: registry operations as a step function -/

/-- One externally triggered operation on the aggregator's registry:
a registration call (with its transport IP, body port and dial outcome
oracle) or a dashboard poll (with its RPC outcome oracle). -/
inductive AggOp (α : Type) where
  | registerOp (remoteIp port : String) (dial : String → Option α)
  | pollOp (rpc : α → Option MetricsResponse)

/-- Effect of one operation on the registry: registration may append via
`register`; the poll handler only reads the vector (it never pushes,
pops or removes — `web/src/main.rs:129-161`). -/
def aggStep {α : Type} (connectors : List α) : AggOp α → List α
  | AggOp.registerOp ip port dial => (register dial connectors ip port).1
  | AggOp.pollOp _ => connectors

/-- Registry contents after a sequence of operations. -/
def aggRun {α : Type} (connectors : List α) : List (AggOp α) → List α
  | [] => connectors
  | op :: ops => aggRun (aggStep connectors op) ops

/-! ### Collector: bootstrap state machine (`collector/src/main.rs:47-81`) -/

/-- Observable events of the agent bootstrap: numbered connection and
registration attempts, the fixed one-second sleep, and the `panic!`
exits. -/
inductive BootEvent where
  | connectAttempt (n : Nat)
  | registerAttempt (n : Nat)
  | backoff
  | panicExit
deriving DecidableEq, Repr

/-- Terminal outcome of the bootstrap. -/
inductive BootResult where
  | fatalConnect
  | fatalRegister
  | registered
deriving DecidableEq, Repr

/-- Embeds the connection retry loop (`collector/src/main.rs:47-65`):
`attempts` is the count so far, `ok n` the outcome oracle of the n-th
`RegistrationServiceClient::connect`. On failure the code sleeps one
second and then panics when `attempts >= 5`, else retries. The fuel
argument is instantiated at 5 and is never exhausted, since the loop
panics at the fifth attempt at the latest. -/
def connectGo (ok : Nat → Bool) (attempts : Nat) : Nat → List BootEvent × Bool
  | 0 => ([], false)
  | fuel + 1 =>
    let a := attempts + 1
    if ok a then ([BootEvent.connectAttempt a], true)
    else if 5 ≤ a then
      ([BootEvent.connectAttempt a, BootEvent.backoff, BootEvent.panicExit], false)
    else
      let rest := connectGo ok a fuel
      (BootEvent.connectAttempt a :: BootEvent.backoff :: rest.1, rest.2)

/-- The connection loop as entered by `main`: zero attempts so far. -/
def connectLoop (ok : Nat → Bool) : List BootEvent × Bool :=
  connectGo ok 0 5

/-- Embeds the registration retry loop (`collector/src/main.rs:67-81`):
`while let Err(..) = register(..) { sleep; errors += 1; if errors >= 5
panic }`. It re-issues only the registration call, never the outer
connect. -/
def registerGo (ok : Nat → Bool) (tries errors : Nat) : Nat → List BootEvent × Bool
  | 0 => ([], false)
  | fuel + 1 =>
    let a := tries + 1
    if ok a then ([BootEvent.registerAttempt a], true)
    else
      let e := errors + 1
      if 5 ≤ e then
        ([BootEvent.registerAttempt a, BootEvent.backoff, BootEvent.panicExit], false)
      else
        let rest := registerGo ok a e fuel
        (BootEvent.registerAttempt a :: BootEvent.backoff :: rest.1, rest.2)

/-- The registration loop as entered by `main`. -/
def registerLoop (ok : Nat → Bool) : List BootEvent × Bool :=
  registerGo ok 0 0 5

/-- The bootstrap sequencing of `main`: connect loop, then registration
loop, reaching `registered` only when both succeed. -/
def bootstrap (connectOk registerOk : Nat → Bool) : List BootEvent × BootResult :=
  let c := connectLoop connectOk
  if c.2 then
    let r := registerLoop registerOk
    if r.2 then (c.1 ++ r.1, BootResult.registered)
    else (c.1 ++ r.1, BootResult.fatalRegister)
  else (c.1, BootResult.fatalConnect)

/-! ### Aggregator: lock/suspension traces of the two handlers -/

/-- Lock and suspension events, in program order, of one aggregator
handler execution: acquiring/releasing the registry mutex, awaiting one
fan-out RPC call, awaiting the reverse dial. -/
inductive AwaitEvent where
  | lockAcquire
  | lockRelease
  | rpcAwait (i : Nat)
  | dialAwait
deriving DecidableEq, Repr

/-- Trace of the `metrics` handler on a registry of `n` clients
(`web/src/main.rs:129-161`): the mutex is acquired at line 132, every
per-agent `request_metrics(..).await` runs at lines 134-143, and the
guard is dropped when the handler returns. -/
def metricsEvents (n : Nat) : List AwaitEvent :=
  AwaitEvent.lockAcquire :: ((List.range n).map AwaitEvent.rpcAwait ++ [AwaitEvent.lockRelease])

/-- Trace of the `register` handler (`web/src/main.rs:79-105`): the
reverse dial is awaited at lines 90-96 before the mutex is touched; on
dial success the mutex is taken at line 98 only for the push and dropped
with no intervening await. -/
def registerEvents (dialOk : Bool) : List AwaitEvent :=
  if dialOk then [AwaitEvent.dialAwait, AwaitEvent.lockAcquire, AwaitEvent.lockRelease]
  else [AwaitEvent.dialAwait]

/-- Whether some awaited call in the trace happens while the registry
lock is held; `d` is the current lock depth. -/
def suspUnderLock : Nat → List AwaitEvent → Bool
  | _, [] => false
  | d, AwaitEvent.lockAcquire :: tr => suspUnderLock (d + 1) tr
  | d, AwaitEvent.lockRelease :: tr => suspUnderLock (d - 1) tr
  | d, AwaitEvent.rpcAwait _ :: tr => decide (0 < d) || suspUnderLock d tr
  | d, AwaitEvent.dialAwait :: tr => decide (0 < d) || suspUnderLock d tr

/-! ### Collector: port validation (`collector/src/config.rs:52-70`) -/

/-- The `config::Error` enum of the collector. -/
inductive ConfigError where
  | BadConfigValue (s : String)
  | MissingConfigValue
deriving DecidableEq, Repr

/-- Embeds `impl FromStr for Port`: empty input is
`MissingConfigValue`; a failed `parse::<u16>()` (non-numeric or above
65535) and a parsed value below 1024 are `BadConfigValue`; anything else
is accepted. -/
def Port.from_str (s : String) : Except ConfigError Nat :=
  if s = "" then Except.error ConfigError.MissingConfigValue
  else
    match rustParseU16 s with
    | none => Except.error (ConfigError.BadConfigValue s)
    | some n =>
        if n < 1024 then Except.error (ConfigError.BadConfigValue s)
        else Except.ok n

/-! ### Concrete values used in witnesses and counterexamples -/

/-- The memory block of the worked example in the spec (§8). -/
def demoMemory : Memory :=
  { mem_total := 1000000, mem_free := 200000, mem_available := 0
    buffers := 50000, cached := 150000 }

/-- A metrics response carrying the spec's worked memory example. -/
def demoResponse : MetricsResponse :=
  { host := "demo", cpu_usage := 0, memory := some demoMemory, net_usage := 0 }

/-- RPC oracle over a registry of `Nat`-labelled agents: agent 0 fails,
agent 1 answers with the demo snapshot. -/
def demoRpc : Nat → Option MetricsResponse :=
  fun n => if n = 1 then some demoResponse else none

/-- The memory block obtained from a meminfo table containing only a
`MemFree` line: `mem_total` stays zero. -/
def underflowMemory : Memory :=
  { mem_total := 0, mem_free := 100000, mem_available := 0, buffers := 0, cached := 0 }

/-- The metrics response the agent produces from that table. -/
def underflowResponse : MetricsResponse :=
  { host := "h", cpu_usage := 0, memory := some underflowMemory, net_usage := 0 }

/-! ## Helper lemmas -/

/-- A line starting with one of the five keys is recognized. -/
theorem recognized_of_key (line key : String) (hk : key ∈ memKeys)
    (hs : strStartsWith line key = true) : lineRecognized line = true := by
  unfold lineRecognized
  rw [List.any_eq_true]
  exact ⟨key, hk, hs⟩

/-- When any recognized line has a parsable second token, one guarded
assignment agrees with its total skeleton. -/
theorem applyMemKey_eq_updPureKey (key : String) (set : Memory → Nat → Memory)
    (line : String) (m : Memory)
    (h : strStartsWith line key = true → (lineValue line).isSome = true) :
    applyMemKey key set line m = some (updPureKey key set line m) := by
  unfold applyMemKey updPureKey
  cases hs : strStartsWith line key with
  | false => simp [hs]
  | true =>
      obtain ⟨v, hv⟩ := Option.isSome_iff_exists.mp (h hs)
      simp [hs, hv]

/-- When every recognized line parses, one loop iteration agrees with its
total skeleton. -/
theorem updateMemLine_eq_updPure (m : Memory) (line : String)
    (h : lineRecognized line = true → (lineValue line).isSome = true) :
    updateMemLine m line = some (updPure m line) := by
  have hk : ∀ key, key ∈ memKeys → strStartsWith line key = true →
      (lineValue line).isSome = true :=
    fun key hmem hs => h (recognized_of_key line key hmem hs)
  unfold updateMemLine
  rw [applyMemKey_eq_updPureKey _ _ _ _ (hk _ (by simp [memKeys])), Option.some_bind,
    applyMemKey_eq_updPureKey _ _ _ _ (hk _ (by simp [memKeys])), Option.some_bind,
    applyMemKey_eq_updPureKey _ _ _ _ (hk _ (by simp [memKeys])), Option.some_bind,
    applyMemKey_eq_updPureKey _ _ _ _ (hk _ (by simp [memKeys])), Option.some_bind,
    applyMemKey_eq_updPureKey _ _ _ _ (hk _ (by simp [memKeys]))]
  rfl

/-- Effect of one total loop iteration on the `mem_total` field. -/
theorem updPure_mem_total (m : Memory) (line : String) :
    (updPure m line).mem_total =
      if strStartsWith line "MemTotal" then (lineValue line).getD 0 * 1000 % U64
      else m.mem_total := by
  simp only [updPure, updPureKey]
  split_ifs <;> rfl

/-- Effect of one total loop iteration on the `mem_free` field. -/
theorem updPure_mem_free (m : Memory) (line : String) :
    (updPure m line).mem_free =
      if strStartsWith line "MemFree" then (lineValue line).getD 0 * 1000 % U64
      else m.mem_free := by
  simp only [updPure, updPureKey]
  split_ifs <;> rfl

/-- Effect of one total loop iteration on the `mem_available` field. -/
theorem updPure_mem_available (m : Memory) (line : String) :
    (updPure m line).mem_available =
      if strStartsWith line "MemAvailable" then (lineValue line).getD 0 * 1000 % U64
      else m.mem_available := by
  simp only [updPure, updPureKey]
  split_ifs <;> rfl

/-- Effect of one total loop iteration on the `buffers` field. -/
theorem updPure_buffers (m : Memory) (line : String) :
    (updPure m line).buffers =
      if strStartsWith line "Buffers" then (lineValue line).getD 0 * 1000 % U64
      else m.buffers := by
  simp only [updPure, updPureKey]
  split_ifs <;> rfl

/-- Effect of one total loop iteration on the `cached` field. -/
theorem updPure_cached (m : Memory) (line : String) :
    (updPure m line).cached =
      if strStartsWith line "Cached" then (lineValue line).getD 0 * 1000 % U64
      else m.cached := by
  simp only [updPure, updPureKey]
  split_ifs <;> rfl

/-- The total fold computes, per field, the value of the last matching
line (or the starting value). -/
theorem foldl_updPure_eq (ls : List String) : ∀ m : Memory,
    ls.foldl updPure m =
      { mem_total := lastKeyVal m.mem_total "MemTotal" ls
        mem_free := lastKeyVal m.mem_free "MemFree" ls
        mem_available := lastKeyVal m.mem_available "MemAvailable" ls
        buffers := lastKeyVal m.buffers "Buffers" ls
        cached := lastKeyVal m.cached "Cached" ls } := by
  induction ls with
  | nil => intro m; rfl
  | cons l ls ih =>
      intro m
      rw [List.foldl_cons, ih]
      simp only [lastKeyVal, updPure_mem_total, updPure_mem_free, updPure_mem_available,
        updPure_buffers, updPure_cached]

/-- When every recognized line parses, the fallible fold succeeds and
agrees with the total fold. -/
theorem foldlM_updateMemLine_eq (ls : List String) : ∀ m : Memory,
    (∀ l ∈ ls, lineRecognized l = true → (lineValue l).isSome = true) →
    ls.foldlM updateMemLine m = some (ls.foldl updPure m) := by
  induction ls with
  | nil => intro m _; rfl
  | cons l ls ih =>
      intro m h
      rw [List.foldlM_cons, updateMemLine_eq_updPure m l (h l (by simp))]
      show (some (updPure m l)).bind _ = _
      rw [Option.some_bind]
      rw [List.foldl_cons]
      exact ih (updPure m l) (fun l' hl' => h l' (by simp [hl']))

/-- A key matched by no line keeps the starting value. -/
theorem lastKeyVal_absent (key : String) (ls : List String) : ∀ d : Nat,
    (∀ l ∈ ls, strStartsWith l key = false) → lastKeyVal d key ls = d := by
  induction ls with
  | nil => intro d _; rfl
  | cons l ls ih =>
      intro d h
      have hl : strStartsWith l key = false := h l (by simp)
      show lastKeyVal (if strStartsWith l key then _ else d) key ls = d
      rw [hl]
      show lastKeyVal d key ls = d
      exact ih d (fun l' hl' => h l' (by simp [hl']))

/-- Wrapping `u64` subtraction agrees with the mathematical difference
when no underflow or overflow occurs. -/
theorem wsub_eq_sub (a b : Nat) (hb : b ≤ a) (ha : a < U64) : wsub a b = a - b := by
  unfold wsub
  have h1 : a + U64 - b = (a - b) + U64 := by omega
  rw [h1, Nat.add_mod_right]
  exact Nat.mod_eq_of_lt (by omega)

/-- The registration retry loop never emits a connection attempt: the
outer connect is not re-entered. -/
theorem registerGo_no_connectAttempt (ok : Nat → Bool) :
    ∀ fuel tries errors, ∀ e ∈ (registerGo ok tries errors fuel).1,
      ∀ n, e ≠ BootEvent.connectAttempt n := by
  intro fuel
  induction fuel with
  | zero => intro tries errors e he; simp [registerGo] at he
  | succ fuel ih =>
      intro tries errors e he n
      by_cases h1 : ok (tries + 1) = true
      · simp [registerGo, h1] at he
        subst he; simp
      · have h1f : ok (tries + 1) = false := by
          cases h : ok (tries + 1) with
          | false => rfl
          | true => exact absurd h h1
        by_cases h2 : 5 ≤ errors + 1
        · simp [registerGo, h1f, h2] at he
          rcases he with he | he | he <;> (subst he; simp)
        · simp [registerGo, h1f, h2] at he
          rcases he with he | he | he
          · subst he; simp
          · subst he; simp
          · exact ih (tries + 1) (errors + 1) e he n

/-- A registration loop that reports success made a successful
registration call. -/
theorem registerGo_true_success (ok : Nat → Bool) :
    ∀ fuel tries errors, (registerGo ok tries errors fuel).2 = true →
      ∃ k, tries < k ∧ k ≤ tries + fuel ∧ ok k = true := by
  intro fuel
  induction fuel with
  | zero => intro tries errors h; simp [registerGo] at h
  | succ fuel ih =>
      intro tries errors h
      by_cases h1 : ok (tries + 1) = true
      · exact ⟨tries + 1, by omega, by omega, h1⟩
      · have h1f : ok (tries + 1) = false := by
          cases hx : ok (tries + 1) with
          | false => rfl
          | true => exact absurd hx h1
        by_cases h2 : 5 ≤ errors + 1
        · simp [registerGo, h1f, h2] at h
        · simp only [registerGo, h1f, h2] at h
          obtain ⟨k, hk1, hk2, hk3⟩ := ih (tries + 1) (errors + 1) (by simpa using h)
          exact ⟨k, by omega, by omega, hk3⟩

/-- Five consecutive connect failures: explicit trace and fatal result. -/
theorem connectLoop_all_fail (ok : Nat → Bool) (h : ∀ i, 1 ≤ i → i ≤ 5 → ok i = false) :
    connectLoop ok =
      ((List.range 5).flatMap (fun i => [BootEvent.connectAttempt (i + 1), BootEvent.backoff])
          ++ [BootEvent.panicExit], false) := by
  have h1 := h 1 (by norm_num) (by norm_num)
  have h2 := h 2 (by norm_num) (by norm_num)
  have h3 := h 3 (by norm_num) (by norm_num)
  have h4 := h 4 (by norm_num) (by norm_num)
  have h5 := h 5 (by norm_num) (by norm_num)
  simp [connectLoop, connectGo, h1, h2, h3, h4, h5]
  decide

/-- Five consecutive registration failures: explicit trace and fatal
result. -/
theorem registerLoop_all_fail (ok : Nat → Bool) (h : ∀ i, 1 ≤ i → i ≤ 5 → ok i = false) :
    registerLoop ok =
      ((List.range 5).flatMap (fun i => [BootEvent.registerAttempt (i + 1), BootEvent.backoff])
          ++ [BootEvent.panicExit], false) := by
  have h1 := h 1 (by norm_num) (by norm_num)
  have h2 := h 2 (by norm_num) (by norm_num)
  have h3 := h 3 (by norm_num) (by norm_num)
  have h4 := h 4 (by norm_num) (by norm_num)
  have h5 := h 5 (by norm_num) (by norm_num)
  simp [registerLoop, registerGo, h1, h2, h3, h4, h5]
  decide

/-- A single aggregator operation only ever appends to the registry. -/
theorem aggStep_extends {α : Type} (st : List α) (op : AggOp α) :
    ∃ u, aggStep st op = st ++ u := by
  cases op with
  | registerOp ip port dial =>
      cases h : dial (connectionTarget ip port) with
      | none => exact ⟨[], by simp [aggStep, register, h]⟩
      | some c => exact ⟨[c], by simp [aggStep, register, h]⟩
  | pollOp rpc => exact ⟨[], by simp [aggStep]⟩

/-- Any sequence of aggregator operations only ever appends to the
registry. -/
theorem aggRun_extends {α : Type} (ops : List (AggOp α)) :
    ∀ st : List α, ∃ t, aggRun st ops = st ++ t := by
  induction ops with
  | nil => intro st; exact ⟨[], by simp [aggRun]⟩
  | cons op ops ih =>
      intro st
      obtain ⟨u, hu⟩ := aggStep_extends st op
      obtain ⟨t, ht⟩ := ih (aggStep st op)
      refine ⟨u ++ t, ?_⟩
      show aggRun (aggStep st op) ops = _
      rw [ht, hu, List.append_assoc]

/-! ## Claim theorems -/

/-- C1: the claim says a per-agent failure never causes the dashboard
response itself to be an error and that the other agents' results are
still returned. The code violates this: in the `metrics` handler the
first failing RPC call is propagated with `?`, so the whole poll returns
`INTERNAL_SERVER_ERROR` even though another registered agent (here agent
1) answers successfully. -/
theorem c1_first_failure_aborts_poll :
    metrics demoRpc [0, 1] = Except.error HStatus.internalServerError ∧
      demoRpc 1 = some demoResponse := ⟨rfl, rfl⟩

/-- C2: the registration handler dials exactly `http://ip:port` built
from the transport IP and the body port (and consults the dial oracle at
no other address); on dial failure it returns an internal error and
leaves the registry unchanged; on dial success it appends exactly the
one new connection — with no deduplication, since the equation holds for
every prior registry contents — and acknowledges with status `"OK"`. -/
theorem c2_register_contract {α : Type} (dial : String → Option α) (st : List α)
    (ip port : String) :
    (dial (connectionTarget ip port) = none →
        register dial st ip port =
          (st, Except.error (GStatus.internal "Could not connect to collector"))) ∧
      (∀ c, dial (connectionTarget ip port) = some c →
        register dial st ip port = (st ++ [c], Except.ok { status := "OK" })) ∧
      (∀ dial2 : String → Option α,
        dial2 (connectionTarget ip port) = dial (connectionTarget ip port) →
        register dial2 st ip port = register dial st ip port) := by
  refine ⟨fun h => ?_, fun c h => ?_, fun dial2 h => ?_⟩ <;> simp [register, h]

/-- Witness for C2 at concrete inputs: a successful dial appends the
fresh client and acknowledges `"OK"`; a failed dial reports an internal
error and leaves the registry as it was. -/
theorem c2_register_contract_witness :
    register (fun s => if s = "http://10.0.0.7:4321" then some 1 else none)
        ([] : List Nat) "10.0.0.7" "4321" = ([1], Except.ok { status := "OK" }) ∧
      register (fun _ => (none : Option Nat)) [5] "10.0.0.7" "4321" =
        ([5], Except.error (GStatus.internal "Could not connect to collector")) := by
  constructor
  · exact (c2_register_contract _ _ _ _).2.1 1 (by decide)
  · exact (c2_register_contract _ _ _ _).1 rfl

/-- C3 counterexample: the claim says a metrics call whose
memory-counter table cannot be read or parsed fails with an internal
error. The code diverges in both halves. Read failure: the error is
mapped to `Status::internal` but then discarded by `.ok()`, so with a
readable hostname file and an unreadable meminfo table the call
succeeds with the memory field absent. Parse failure: a recognized line
whose second token is not a `u64` numeral hits `unwrap`, so the handler
panics (the outer `none`) instead of returning an internal error. -/
theorem c3_memory_error_not_internal :
    request_metrics (some "agent-1\n") none =
        some (Except.ok { host := "agent-1", cpu_usage := 0, memory := none, net_usage := 0 }) ∧
      request_metrics (some "agent-1\n") (some "MemTotal: abc kB") = none :=
  ⟨rfl, rfl⟩

/-- C3 as amended: a hostname read failure fails the call with an
internal error; a memory-table read failure is recovered locally and the
call succeeds with the memory field absent; a memory-table parse failure
(a recognized line without a parsable second token) panics instead of
returning an internal error; with both reads and the parse successful
the call succeeds with the parsed memory. The handler is a pure function
of its per-call reads, so each failure affects only its own call. -/
theorem c3_request_metrics_amended (hostnameRead meminfoRead : Option String) :
    (hostnameRead = none →
        request_metrics hostnameRead meminfoRead =
          some (Except.error (GStatus.internal "Could not get hostname"))) ∧
      (∀ h, hostnameRead = some h → meminfoRead = none →
        request_metrics hostnameRead meminfoRead =
          some (Except.ok { host := rustTrim h, cpu_usage := 0, memory := none, net_usage := 0 })) ∧
      (∀ h file, hostnameRead = some h → meminfoRead = some file →
        memory_usage file = none →
        request_metrics hostnameRead meminfoRead = none) ∧
      (∀ h file mem, hostnameRead = some h → meminfoRead = some file →
        memory_usage file = some mem →
        request_metrics hostnameRead meminfoRead =
          some (Except.ok
            { host := rustTrim h, cpu_usage := 0, memory := some mem, net_usage := 0 })) := by
  refine ⟨fun h1 => ?_, fun h hh hm => ?_, fun h file hh hm hmem => ?_,
    fun h file mem hh hm hmem => ?_⟩
  · subst h1; rfl
  · subst hh; subst hm; rfl
  · subst hh; subst hm; simp [request_metrics, hmem]
  · subst hh; subst hm; simp [request_metrics, hmem]

/-- Witness for the amended C3 at concrete inputs: all four outcomes
(hostname read failure, memory read failure, memory parse panic, full
success), with every hypothesis discharged by evaluation. -/
theorem c3_request_metrics_amended_witness :
    request_metrics none (some "x") =
        some (Except.error (GStatus.internal "Could not get hostname")) ∧
      request_metrics (some "web-1") none =
        some (Except.ok
          { host := rustTrim "web-1", cpu_usage := 0, memory := none, net_usage := 0 }) ∧
      request_metrics (some "web-1") (some "Buffers") = none ∧
      request_metrics (some "web-1") (some "MemFree 100") =
        some (Except.ok
          { host := rustTrim "web-1", cpu_usage := 0, memory := some underflowMemory,
            net_usage := 0 }) :=
  ⟨(c3_request_metrics_amended none (some "x")).1 rfl,
    (c3_request_metrics_amended (some "web-1") none).2.1 "web-1" rfl rfl,
    (c3_request_metrics_amended (some "web-1") (some "Buffers")).2.2.1 "web-1"
      "Buffers" rfl rfl (by decide),
    (c3_request_metrics_amended (some "web-1") (some "MemFree 100")).2.2.2 "web-1"
      "MemFree 100" underflowMemory rfl rfl (by decide)⟩

/-- C5: the memory parser recognizes exactly the five keys by line
prefix (`memSpec` is written from the spec's wording: each field is the
second whitespace-delimited token of the last line matching its key,
parsed as an unsigned integer and multiplied by 1000, zero when the key
is absent; unrecognized lines are ignored); and an input with no
recognized line at all yields the all-zero memory value, not an error.
The hypothesis is the source's `unwrap` precondition: every recognized
line carries a parsable second token. -/
theorem c5_memory_parsing (file : String)
    (hp : ∀ l ∈ rustLines file, lineRecognized l = true → (lineValue l).isSome = true) :
    memory_usage file = some (memSpec file) ∧
      ((∀ l ∈ rustLines file, lineRecognized l = false) →
        memory_usage file = some zeroMemory) := by
  have hmain : memory_usage file = some (memSpec file) := by
    unfold memory_usage memSpec
    rw [foldlM_updateMemLine_eq _ zeroMemory hp, foldl_updPure_eq]
    rfl
  refine ⟨hmain, fun hno => ?_⟩
  have habs : ∀ key, key ∈ memKeys → ∀ l ∈ rustLines file, strStartsWith l key = false := by
    intro key hkey l hl
    have hrec := hno l hl
    unfold lineRecognized at hrec
    rw [List.any_eq_false] at hrec
    have h2 := hrec key hkey
    simpa using h2
  rw [hmain]
  unfold memSpec zeroMemory
  rw [lastKeyVal_absent _ _ _ (habs "MemTotal" (by simp [memKeys])),
    lastKeyVal_absent _ _ _ (habs "MemFree" (by simp [memKeys])),
    lastKeyVal_absent _ _ _ (habs "MemAvailable" (by simp [memKeys])),
    lastKeyVal_absent _ _ _ (habs "Buffers" (by simp [memKeys])),
    lastKeyVal_absent _ _ _ (habs "Cached" (by simp [memKeys]))]

/-- Witness for C5 at concrete inputs: a mixed table (all five keys
present plus an unrecognized line) parses to its spec value, and a table
with no recognized key yields the all-zero memory value. -/
theorem c5_memory_parsing_witness :
    memory_usage
        "MemTotal: 1000 kB\nMemFree: 200 kB\nBuffers: 50 kB\nCached: 150 kB\nShmem: 7 kB\nMemAvailable: 800 kB" =
      some (memSpec
        "MemTotal: 1000 kB\nMemFree: 200 kB\nBuffers: 50 kB\nCached: 150 kB\nShmem: 7 kB\nMemAvailable: 800 kB") ∧
      memory_usage "cpu0 4000\nnothing recognized here" = some zeroMemory :=
  ⟨(c5_memory_parsing _ (by decide)).1,
    (c5_memory_parsing "cpu0 4000\nnothing recognized here" (by decide)).2 (by decide)⟩

/-- C6: on every snapshot whose counters satisfy the no-underflow
precondition (which also makes the `u64` subtractions exact), derived
used memory is total − free − buffers − cached and derived percent-used
is used / total; on the spec's worked example the derived values are
600000 and 0.6. -/
theorem c6_memory_derivation (m : MetricsResponse)
    (hT : mem_total m < U64)
    (hsum : mem_free m + buffers m + cached m ≤ mem_total m) :
    used m = mem_total m - mem_free m - buffers m - cached m ∧
      pct_used m = (used m : Rat) / (mem_total m : Rat) ∧
      used demoResponse = 600000 ∧
      pct_used demoResponse = 3 / 5 := by
  have h1 : used m = mem_total m - mem_free m - buffers m - cached m := by
    unfold used
    have e1 : wsub (mem_total m) (mem_free m) = mem_total m - mem_free m :=
      wsub_eq_sub _ _ (by omega) hT
    have e2 : wsub (mem_total m - mem_free m) (buffers m) =
        mem_total m - mem_free m - buffers m :=
      wsub_eq_sub _ _ (by omega) (by omega)
    have e3 : wsub (mem_total m - mem_free m - buffers m) (cached m) =
        mem_total m - mem_free m - buffers m - cached m :=
      wsub_eq_sub _ _ (by omega) (by omega)
    rw [e1, e2, e3]
  have hu : used demoResponse = 600000 := by decide
  refine ⟨h1, rfl, hu, ?_⟩
  unfold pct_used
  rw [hu]
  have ht : mem_total demoResponse = 1000000 := by decide
  rw [ht]
  norm_num

/-- Witness for C6 at the spec's worked example, all hypotheses
discharged by evaluation. -/
theorem c6_memory_derivation_witness :
    used demoResponse =
        mem_total demoResponse - mem_free demoResponse - buffers demoResponse
          - cached demoResponse ∧
      pct_used demoResponse = 3 / 5 :=
  ⟨(c6_memory_derivation demoResponse (by decide) (by decide)).1,
    (c6_memory_derivation demoResponse (by decide) (by decide)).2.2.2⟩

/-- C7: a metrics response with `mem_total = 0` and `mem_free > 0` is
reachable at the public interface (it is what `request_metrics` returns
for a meminfo table holding only a `MemFree` line), and on it the
unsigned subtraction in `used` underflows: the mathematical difference
is negative and the computed `u64` value wraps to `2^64 − 100000`. -/
theorem c7_used_underflow :
    memory_usage "MemFree 100" = some underflowMemory ∧
      request_metrics (some "h") (some "MemFree 100") = some (Except.ok underflowResponse) ∧
      mem_total underflowResponse = 0 ∧
      0 < mem_free underflowResponse ∧
      used underflowResponse = U64 - 100000 ∧
      (mem_total underflowResponse : Int) - (mem_free underflowResponse : Int)
          - (buffers underflowResponse : Int) - (cached underflowResponse : Int) < 0 :=
  ⟨by decide, rfl, rfl, by decide, by decide, by decide⟩

/-- C8: the registry is append-only. Every sequence of registration and
poll operations extends the registry by a (possibly empty) suffix, its
length never decreases, and a poll leaves it unchanged. -/
theorem c8_registry_append_only {α : Type} (st : List α) (ops : List (AggOp α)) :
    (∃ t, aggRun st ops = st ++ t) ∧
      st.length ≤ (aggRun st ops).length ∧
      (∀ rpc, aggStep st (AggOp.pollOp rpc) = st) := by
  obtain ⟨t, ht⟩ := aggRun_extends ops st
  refine ⟨⟨t, ht⟩, ?_, fun rpc => rfl⟩
  rw [ht]
  simp

/-- C9: port validation accepts exactly the strings that parse as an
unsigned integer (Rust's grammar: optional leading plus sign, decimal
digits) with value between 1024 and 65535; the empty string is
`MissingConfigValue`, and non-numeric strings, values above 65535
(rejected by the `u16` parse) and values below 1024 are
`BadConfigValue`. -/
theorem c9_port_validation (s : String) :
    Port.from_str "" = Except.error ConfigError.MissingConfigValue ∧
      (s ≠ "" → rustParseNat s = none →
        Port.from_str s = Except.error (ConfigError.BadConfigValue s)) ∧
      (∀ n, rustParseNat s = some n → 65535 < n →
        Port.from_str s = Except.error (ConfigError.BadConfigValue s)) ∧
      (∀ n, rustParseNat s = some n → n < 1024 →
        Port.from_str s = Except.error (ConfigError.BadConfigValue s)) ∧
      (∀ n, rustParseNat s = some n → 1024 ≤ n → n ≤ 65535 → Port.from_str s = Except.ok n) ∧
      ((∃ n, Port.from_str s = Except.ok n) ↔
        ∃ n, rustParseNat s = some n ∧ 1024 ≤ n ∧ n ≤ 65535) := by
  have hnonempty : ∀ n, rustParseNat s = some n → s ≠ "" := by
    intro n hn he
    subst he
    have hz : rustParseNat "" = none := rfl
    rw [hz] at hn
    exact Option.noConfusion hn
  have hok : ∀ n, rustParseNat s = some n → 1024 ≤ n → n ≤ 65535 →
      Port.from_str s = Except.ok n := by
    intro n hp hlo hhi
    have hlt : n < 65536 := by omega
    have hnl : ¬ n < 1024 := by omega
    simp [Port.from_str, rustParseU16, hnonempty n hp, hp, hlt, hnl]
  have hbad : s ≠ "" → rustParseNat s = none →
      Port.from_str s = Except.error (ConfigError.BadConfigValue s) := by
    intro hne hp
    simp [Port.from_str, rustParseU16, hne, hp]
  refine ⟨rfl, hbad, ?_, ?_, hok, ?_⟩
  · intro n hp hgt
    have hge : ¬ n < 65536 := by omega
    simp [Port.from_str, rustParseU16, hnonempty n hp, hp, hge]
  · intro n hp hlt
    have hsm : n < 65536 := by omega
    simp [Port.from_str, rustParseU16, hnonempty n hp, hp, hsm, hlt]
  · constructor
    · rintro ⟨n, hn⟩
      by_cases hs : s = ""
      · subst hs
        rw [show Port.from_str "" = Except.error ConfigError.MissingConfigValue from rfl] at hn
        exact Except.noConfusion hn
      · cases hp0 : rustParseNat s with
        | none =>
            rw [hbad hs hp0] at hn
            exact Except.noConfusion hn
        | some m =>
            by_cases hm : m < 65536
            · by_cases hm2 : m < 1024
              · have herr : Port.from_str s = Except.error (ConfigError.BadConfigValue s) := by
                  simp [Port.from_str, rustParseU16, hs, hp0, hm, hm2]
                rw [herr] at hn
                exact Except.noConfusion hn
              · exact ⟨m, rfl, by omega, by omega⟩
            · have herr : Port.from_str s = Except.error (ConfigError.BadConfigValue s) := by
                simp [Port.from_str, rustParseU16, hs, hp0, hm]
              rw [herr] at hn
              exact Except.noConfusion hn
    · rintro ⟨n, hp, h1, h2⟩
      exact ⟨n, hok n hp h1 h2⟩

/-- Witness for C9 at concrete inputs: one accepted port and each
rejection class, every hypothesis discharged by evaluation. -/
theorem c9_port_validation_witness :
    Port.from_str "8080" = Except.ok 8080 ∧
      Port.from_str "" = Except.error ConfigError.MissingConfigValue ∧
      Port.from_str "abc" = Except.error (ConfigError.BadConfigValue "abc") ∧
      Port.from_str "80" = Except.error (ConfigError.BadConfigValue "80") ∧
      Port.from_str "70000" = Except.error (ConfigError.BadConfigValue "70000") :=
  ⟨(c9_port_validation "8080").2.2.2.2.1 8080 (by decide) (by decide) (by decide),
    (c9_port_validation "x").1,
    (c9_port_validation "abc").2.1 (by decide) (by decide),
    (c9_port_validation "80").2.2.2.1 80 (by decide) (by decide),
    (c9_port_validation "70000").2.2.1 70000 (by decide) (by decide)⟩

/-- C4: the agent bootstrap state machine. Failed dials before the fifth
are each followed by one backoff and a retry (the explicit trace
alternates attempts and backoffs); five consecutive dial failures end in
an abnormal exit with result `fatalConnect`; the registration loop
behaves the same way (and its trace never contains a connect attempt, so
a registration retry never re-dials); a run that ends `registered` made
a successful registration call among its first five attempts. -/
theorem c4_bootstrap_state_machine (cok rok : Nat → Bool) :
    ((∀ i, 1 ≤ i → i ≤ 5 → cok i = false) →
        bootstrap cok rok =
          ((List.range 5).flatMap (fun i => [BootEvent.connectAttempt (i + 1), BootEvent.backoff])
              ++ [BootEvent.panicExit], BootResult.fatalConnect)) ∧
      (∀ k, 1 ≤ k → k ≤ 5 → (∀ i, 1 ≤ i → i < k → cok i = false) → cok k = true →
        connectLoop cok =
          ((List.range (k - 1)).flatMap
              (fun i => [BootEvent.connectAttempt (i + 1), BootEvent.backoff])
              ++ [BootEvent.connectAttempt k], true)) ∧
      ((∀ i, 1 ≤ i → i ≤ 5 → rok i = false) →
        registerLoop rok =
          ((List.range 5).flatMap
              (fun i => [BootEvent.registerAttempt (i + 1), BootEvent.backoff])
              ++ [BootEvent.panicExit], false)) ∧
      (∀ k, 1 ≤ k → k ≤ 5 → (∀ i, 1 ≤ i → i < k → rok i = false) → rok k = true →
        registerLoop rok =
          ((List.range (k - 1)).flatMap
              (fun i => [BootEvent.registerAttempt (i + 1), BootEvent.backoff])
              ++ [BootEvent.registerAttempt k], true)) ∧
      (∀ e ∈ (registerLoop rok).1, ∀ n, e ≠ BootEvent.connectAttempt n) ∧
      ((connectLoop cok).2 = true → (∀ i, 1 ≤ i → i ≤ 5 → rok i = false) →
        (bootstrap cok rok).2 = BootResult.fatalRegister) ∧
      ((bootstrap cok rok).2 = BootResult.registered → ∃ k, 1 ≤ k ∧ k ≤ 5 ∧ rok k = true) := by
  refine ⟨?_, ?_, registerLoop_all_fail rok, ?_, registerGo_no_connectAttempt rok 5 0 0, ?_, ?_⟩
  · intro h
    have hc := connectLoop_all_fail cok h
    simp [bootstrap, hc]
  · intro k hk1 hk5 hfail hs
    interval_cases k
    · simp [connectLoop, connectGo, hs]
    · have h1 := hfail 1 (by norm_num) (by norm_num)
      simp [connectLoop, connectGo, h1, hs]
      decide
    · have h1 := hfail 1 (by norm_num) (by norm_num)
      have h2 := hfail 2 (by norm_num) (by norm_num)
      simp [connectLoop, connectGo, h1, h2, hs]
      decide
    · have h1 := hfail 1 (by norm_num) (by norm_num)
      have h2 := hfail 2 (by norm_num) (by norm_num)
      have h3 := hfail 3 (by norm_num) (by norm_num)
      simp [connectLoop, connectGo, h1, h2, h3, hs]
      decide
    · have h1 := hfail 1 (by norm_num) (by norm_num)
      have h2 := hfail 2 (by norm_num) (by norm_num)
      have h3 := hfail 3 (by norm_num) (by norm_num)
      have h4 := hfail 4 (by norm_num) (by norm_num)
      simp [connectLoop, connectGo, h1, h2, h3, h4, hs]
      decide
  · intro k hk1 hk5 hfail hs
    interval_cases k
    · simp [registerLoop, registerGo, hs]
    · have h1 := hfail 1 (by norm_num) (by norm_num)
      simp [registerLoop, registerGo, h1, hs]
      decide
    · have h1 := hfail 1 (by norm_num) (by norm_num)
      have h2 := hfail 2 (by norm_num) (by norm_num)
      simp [registerLoop, registerGo, h1, h2, hs]
      decide
    · have h1 := hfail 1 (by norm_num) (by norm_num)
      have h2 := hfail 2 (by norm_num) (by norm_num)
      have h3 := hfail 3 (by norm_num) (by norm_num)
      simp [registerLoop, registerGo, h1, h2, h3, hs]
      decide
    · have h1 := hfail 1 (by norm_num) (by norm_num)
      have h2 := hfail 2 (by norm_num) (by norm_num)
      have h3 := hfail 3 (by norm_num) (by norm_num)
      have h4 := hfail 4 (by norm_num) (by norm_num)
      simp [registerLoop, registerGo, h1, h2, h3, h4, hs]
      decide
  · intro hc hr
    have hreg := registerLoop_all_fail rok hr
    simp [bootstrap, hc, hreg]
  · intro hreg
    by_cases hc2 : (connectLoop cok).2 = true
    · by_cases hr2 : (registerLoop rok).2 = true
      · obtain ⟨k, hk1, hk2, hk3⟩ := registerGo_true_success rok 5 0 0 hr2
        exact ⟨k, by omega, by omega, hk3⟩
      · have hr2f : (registerLoop rok).2 = false := by
          cases hx : (registerLoop rok).2 with
          | false => rfl
          | true => exact absurd hx hr2
        simp [bootstrap, hc2, hr2f] at hreg
    · have hc2f : (connectLoop cok).2 = false := by
        cases hx : (connectLoop cok).2 with
        | false => rfl
        | true => exact absurd hx hc2
      simp [bootstrap, hc2f] at hreg

/-- Witness for C4 at concrete oracles: five dial failures end fatal
with the exact attempt/backoff trace; a dial succeeding at attempt 2
retries once after one backoff; registration succeeding at attempt 3
retries twice; a run with failing registration ends `fatalRegister`; a
successfully registered run made a successful registration call. -/
theorem c4_bootstrap_state_machine_witness :
    bootstrap (fun _ => false) (fun _ => false) =
        ([BootEvent.connectAttempt 1, BootEvent.backoff, BootEvent.connectAttempt 2,
          BootEvent.backoff, BootEvent.connectAttempt 3, BootEvent.backoff,
          BootEvent.connectAttempt 4, BootEvent.backoff, BootEvent.connectAttempt 5,
          BootEvent.backoff, BootEvent.panicExit], BootResult.fatalConnect) ∧
      connectLoop (fun n => n == 2) =
        ([BootEvent.connectAttempt 1, BootEvent.backoff, BootEvent.connectAttempt 2], true) ∧
      registerLoop (fun n => n == 3) =
        ([BootEvent.registerAttempt 1, BootEvent.backoff, BootEvent.registerAttempt 2,
          BootEvent.backoff, BootEvent.registerAttempt 3], true) ∧
      (bootstrap (fun n => n == 1) (fun _ => false)).2 = BootResult.fatalRegister ∧
      (∃ k, 1 ≤ k ∧ k ≤ 5 ∧ (fun n => n == 2) k = true) := by
  refine ⟨?_, ?_, ?_, ?_, ?_⟩
  · exact (c4_bootstrap_state_machine (fun _ => false) (fun _ => false)).1 (fun i _ _ => rfl)
  · exact (c4_bootstrap_state_machine (fun n => n == 2) (fun _ => false)).2.1 2
      (by norm_num) (by norm_num)
      (by intro i hi1 hi2; interval_cases i; rfl) rfl
  · exact (c4_bootstrap_state_machine (fun _ => false) (fun n => n == 3)).2.2.2.1 3
      (by norm_num) (by norm_num)
      (by intro i hi1 hi2; interval_cases i <;> rfl) rfl
  · exact (c4_bootstrap_state_machine (fun n => n == 1) (fun _ => false)).2.2.2.2.2.1
      (by decide) (fun i _ _ => rfl)
  · exact (c4_bootstrap_state_machine (fun n => n == 1) (fun n => n == 2)).2.2.2.2.2.2
      (by decide)

/-- C10 counterexample: the claim says no lock is held across a
suspension point anywhere in the aggregator. In the `metrics` handler
the registry mutex is acquired before the fan-out loop and released only
after it, so with even one registered agent an RPC call is awaited while
the lock is held. -/
theorem c10_poll_locks_across_await : suspUnderLock 0 (metricsEvents 1) = true := by decide

/-- C10 as amended: the fan-out poll holds the registry mutex across
every per-agent RPC await, excluding concurrent registration appends for
the duration of the poll (for any non-empty registry); only the
registration handler follows the claimed discipline — its reverse dial
is awaited outside the lock, and the lock is held only for the append,
with no suspension inside. -/
theorem c10_lock_discipline_amended (n : Nat) (hn : 0 < n) :
    suspUnderLock 0 (metricsEvents n) = true ∧
      suspUnderLock 0 (registerEvents true) = false ∧
      suspUnderLock 0 (registerEvents false) = false ∧
      suspUnderLock 0 (metricsEvents 0) = false := by
  obtain ⟨m, rfl⟩ : ∃ m, n = m + 1 := ⟨n - 1, by omega⟩
  refine ⟨?_, by decide, by decide, by decide⟩
  simp [metricsEvents, List.range_succ_eq_map, suspUnderLock]

/-- Witness for the amended C10 at a two-agent registry. -/
theorem c10_lock_discipline_amended_witness :
    suspUnderLock 0 (metricsEvents 2) = true ∧
      suspUnderLock 0 (registerEvents true) = false ∧
      suspUnderLock 0 (registerEvents false) = false ∧
      suspUnderLock 0 (metricsEvents 0) = false :=
  c10_lock_discipline_amended 2 (by decide)

end ServerStats
